import Mathlib

/-!
Formal model of the `timeit` crate (`src/lib.rs`).

The crate exposes two macros:

* `timeit_loops!(n, block)` — reads `get_time()`, runs the block `n` times
  (`for _ in 0..n`), reads `get_time()` again, converts the timestamp
  difference to fractional seconds and divides by `n`;
* `timeit!(block)` — runs `timeit_loops!` once with `n = 1`, computes
  `l = sec.log10().ceil() as isize`, picks a second loop count
  (`1_000_000` if `l < -5`, `10^(-l)` if `l <= 0`, otherwise keeps `n = 1`
  and skips the second pass), re-times if needed, and selects a display
  unit by threshold comparison.

The embedding below treats finite `f64` values as exact rationals and the
benchmarked block together with the clock as explicit state passing: a
state type `σ`, a `step : σ → σ` for one execution of the block, and
`clock : σ → Timespec × σ` for one `get_time()` read (reading the clock
may itself let time pass, hence the returned state).
-/

namespace Timeit

/-- Model of time::Timespec from the `time` crate: a timestamp split into
whole seconds and nanoseconds. -/
structure Timespec where
  sec : Int
  nsec : Int
deriving Repr, DecidableEq

/-- The elapsed-seconds computation of `timeit_loops!`:
`(end.sec - start.sec) as f64 + (end.nsec - start.nsec) as f64 / 1_000_000_000.0`,
with `f64` idealized as exact rational arithmetic. -/
def elapsedSec (start stop : Timespec) : ℚ :=
  ((stop.sec - start.sec : Int) : ℚ) + ((stop.nsec - start.nsec : Int) : ℚ) / 1000000000

/-- An `f64` value as produced by the timing macros: a finite value
(idealized as an exact rational) or one of the IEEE-754 special values
that the division `sec / (n as f64)` can produce. -/
inductive FVal where
  | finite (q : ℚ)
  | posInf
  | negInf
  | nan
deriving Repr, DecidableEq

/-- The rational carried by a finite value; junk `0` on the special
values, which are never produced by a pass with a positive loop count
(`timeit_loops_pos_finite`). -/
def FVal.toQ : FVal → ℚ
  | .finite q => q
  | _ => 0

/-- IEEE-754 division of a finite `f64` by a finite `f64`, idealized over
the rationals: division by zero yields `+∞`, `-∞` or NaN according to the
sign of the dividend, and is otherwise exact. -/
def fdiv (x y : ℚ) : FVal :=
  if y = 0 then
    if 0 < x then .posInf else if x < 0 then .negInf else .nan
  else .finite (x / y)

/-- The world a timing run executes in: a state type `σ`, one execution
of the benchmarked block (`step`), and one `get_time()` read (`clock`),
which returns the current timestamp and the state after the read. -/
structure Env (σ : Type) where
  step : σ → σ
  clock : σ → Timespec × σ

/-- The loop `for _ in 0..n { $code }`: run the block `n` times in
sequence. -/
def loopN {σ : Type} (f : σ → σ) : Nat → σ → σ
  | 0, s => s
  | n + 1, s => loopN f n (f s)

/-- The timeit_loops! macro: read the start timestamp, run the block `n`
times, read the end timestamp, and return the elapsed seconds divided by
`n as f64`.  The loop count is an `Int`, mirroring the `isize` the
adaptive driver passes; `for _ in 0..n` runs `n.toNat` iterations (zero
when `n ≤ 0`). -/
def timeit_loops {σ : Type} (E : Env σ) (n : Int) (s : σ) : FVal × σ :=
  let startRead := E.clock s
  let s1 := loopN E.step n.toNat startRead.2
  let endRead := E.clock s1
  (fdiv (elapsedSec startRead.1 endRead.1) (n : ℚ), endRead.2)

/-- The magnitude computation of the driver: `sec.log10().ceil() as isize`.
For positive `x` the exact real value of `ceil (log10 x)` is `Int.clog 10 x`
(the least `z` with `x ≤ 10^z`).  For `x = 0`, `f64::log10` returns `-∞`,
`ceil` keeps it, and Rust's saturating float-to-integer cast yields
`isize::MIN = -2^63`.  For negative `x`, `log10` returns NaN, and `NaN as
isize` is `0`. -/
def log10ceil (x : ℚ) : Int :=
  if x = 0 then -(2 ^ 63)
  else if x < 0 then 0
  else Int.clog 10 x

/-- The unit-selection chain at the end of the timeit! macro: strict
greater-than comparisons, largest threshold first, yielding the divisor
and the unit label. -/
def selectUnit (sec : ℚ) : ℚ × String :=
  if 1 < sec then (1, "s")
  else if 1 / 1000 < sec then (1 / 1000, "ms")
  else if 1 / 1000000 < sec then (1 / 1000000, "µs")
  else (1 / 1000000000, "ns")

/-- The observable outcome of one timeit! expansion: the final loop count
`n`, the final per-iteration sample `sec`, the display divisor `mult` and
unit label `unit_str` passed to `println!`, and `passes`, the loop counts
of the successive timeit_loops! invocations, in order. -/
structure Report where
  n : Int
  sec : ℚ
  mult : ℚ
  unit_str : String
  passes : List Int
deriving Repr, DecidableEq

/-- The timeit! macro: a first pass with `n = 1`, the magnitude-driven
choice of a new loop count (`1_000_000` if `l < -5`, `10^(-l)` if
`l <= 0`, else keep `n = 1` with `again = false`), an optional second
pass, and unit selection on the final sample. -/
def timeit {σ : Type} (E : Env σ) (s : σ) : Report × σ :=
  let n0 : Int := 1
  let p1 := timeit_loops E n0 s
  let sec0 : ℚ := p1.1.toQ
  let l : Int := log10ceil sec0
  let nAgain : Int × Bool :=
    if l < -5 then (1000000, true)
    else if l ≤ 0 then ((10 : Int) ^ (-l).toNat, true)
    else (n0, false)
  let res : ℚ × σ × List Int :=
    if nAgain.2 then
      let p2 := timeit_loops E nAgain.1 p1.2
      (p2.1.toQ, p2.2, [n0, nAgain.1])
    else (sec0, p1.2, [n0])
  let mu := selectUnit res.1
  (⟨nAgain.1, res.1, mu.1, mu.2, res.2.2⟩, res.2.1)

/-- A deterministic test world used for concrete runs: the state is a
pair `(t, c)` of the current time in nanoseconds and a count of block
executions; the block takes exactly `d` nanoseconds. -/
def simClock (t : Nat) : Timespec :=
  ⟨((t / 1000000000 : Nat) : Int), ((t % 1000000000 : Nat) : Int)⟩

/-- The environment whose block takes exactly `d` nanoseconds and whose
clock read is instantaneous. -/
def simEnv (d : Nat) : Env (Nat × Nat) where
  step s := (s.1 + d, s.2 + 1)
  clock s := (simClock s.1, s)


/-- Validity of a timestamp as produced by a real clock source: the
nanosecond field lies in `[0, 1_000_000_000)`. -/
def Timespec.valid (t : Timespec) : Prop := 0 ≤ t.nsec ∧ t.nsec < 1000000000

instance (t : Timespec) : Decidable t.valid :=
  inferInstanceAs (Decidable (0 ≤ t.nsec ∧ t.nsec < 1000000000))

/-- Chronological order on timestamps: `a` is not later than `b`. -/
def Timespec.le (a b : Timespec) : Prop :=
  a.sec < b.sec ∨ (a.sec = b.sec ∧ a.nsec ≤ b.nsec)

instance (a b : Timespec) : Decidable (Timespec.le a b) :=
  inferInstanceAs (Decidable (a.sec < b.sec ∨ (a.sec = b.sec ∧ a.nsec ≤ b.nsec)))

/-! ## Supporting lemmas -/

/-- Running the simulated block `k` times advances the clock by `k * d`
nanoseconds and the execution counter by `k`. -/
theorem loopN_simEnv (d k t c : Nat) :
    loopN (simEnv d).step k (t, c) = (t + k * d, c + k) := by
  induction k generalizing t c with
  | zero => simp [loopN]
  | succ m ih =>
    show loopN (simEnv d).step (m + 1) (t, c) = _
    rw [loopN]
    show loopN (simEnv d).step m (t + d, c + 1) = _
    rw [ih]
    simp only [Prod.mk.injEq]
    constructor <;> ring

/-- The split-and-recombine elapsed-time computation is exact on the
simulated clock: splitting a nanosecond count into whole seconds and a
nanosecond remainder and recombining loses nothing. -/
theorem elapsedSec_simClock (a b : Nat) :
    elapsedSec (simClock a) (simClock b) = ((b : ℚ) - (a : ℚ)) / 1000000000 := by
  have ha : (1000000000 : ℚ) * ((a / 1000000000 : Nat) : ℚ) + ((a % 1000000000 : Nat) : ℚ)
      = (a : ℚ) := by
    exact_mod_cast congrArg (Nat.cast (R := ℚ)) (Nat.div_add_mod a 1000000000)
  have hb : (1000000000 : ℚ) * ((b / 1000000000 : Nat) : ℚ) + ((b % 1000000000 : Nat) : ℚ)
      = (b : ℚ) := by
    exact_mod_cast congrArg (Nat.cast (R := ℚ)) (Nat.div_add_mod b 1000000000)
  unfold elapsedSec simClock
  simp only [Int.cast_sub, Int.cast_natCast]
  linear_combination (hb - ha) / 1000000000

/-- Closed form of a fixed-count pass in the simulated world. -/
theorem timeit_loops_simEnv (d : Nat) (n : Int) (t c : Nat) :
    timeit_loops (simEnv d) n (t, c) =
      (fdiv (((n.toNat * d : Nat) : ℚ) / 1000000000) (n : ℚ),
       (t + n.toNat * d, c + n.toNat)) := by
  unfold timeit_loops
  show (fdiv (elapsedSec (simClock t)
        (simClock (loopN (simEnv d).step n.toNat (t, c)).1)) (n : ℚ),
        loopN (simEnv d).step n.toNat (t, c)) = _
  rw [loopN_simEnv, elapsedSec_simClock]
  congr 1
  congr 1
  push_cast
  ring

/-- On an exact power of ten the magnitude computation returns the
exponent. -/
theorem log10ceil_zpow (z : Int) : log10ceil ((10 : ℚ) ^ z) = z := by
  unfold log10ceil
  rw [if_neg, if_neg]
  · exact Int.clog_zpow (by norm_num) z
  · exact not_lt.mpr (le_of_lt (zpow_pos (by norm_num) z))
  · exact ne_of_gt (zpow_pos (by norm_num) z)

/-- When the first-pass magnitude satisfies `l < -5` the driver runs a
second pass with a loop count of `1_000_000`. -/
theorem timeit_eq_fast {σ : Type} (E : Env σ) (s : σ)
    (h : log10ceil ((timeit_loops E 1 s).1).toQ < -5) :
    timeit E s =
      (⟨1000000, ((timeit_loops E 1000000 (timeit_loops E 1 s).2).1).toQ,
        (selectUnit (((timeit_loops E 1000000 (timeit_loops E 1 s).2).1).toQ)).1,
        (selectUnit (((timeit_loops E 1000000 (timeit_loops E 1 s).2).1).toQ)).2,
        [1, 1000000]⟩,
       (timeit_loops E 1000000 (timeit_loops E 1 s).2).2) := by
  simp only [timeit]
  rw [if_pos h]
  rfl

/-- When the first-pass magnitude satisfies `-5 ≤ l ≤ 0` the driver runs
a second pass with a loop count of `10 ^ (-l)`. -/
theorem timeit_eq_mid {σ : Type} (E : Env σ) (s : σ)
    (h1 : -5 ≤ log10ceil ((timeit_loops E 1 s).1).toQ)
    (h2 : log10ceil ((timeit_loops E 1 s).1).toQ ≤ 0) :
    timeit E s =
      (⟨(10 : Int) ^ (-(log10ceil ((timeit_loops E 1 s).1).toQ)).toNat,
        ((timeit_loops E ((10 : Int) ^ (-(log10ceil ((timeit_loops E 1 s).1).toQ)).toNat)
          (timeit_loops E 1 s).2).1).toQ,
        (selectUnit (((timeit_loops E ((10 : Int) ^ (-(log10ceil ((timeit_loops E 1 s).1).toQ)).toNat)
          (timeit_loops E 1 s).2).1).toQ)).1,
        (selectUnit (((timeit_loops E ((10 : Int) ^ (-(log10ceil ((timeit_loops E 1 s).1).toQ)).toNat)
          (timeit_loops E 1 s).2).1).toQ)).2,
        [1, (10 : Int) ^ (-(log10ceil ((timeit_loops E 1 s).1).toQ)).toNat]⟩,
       (timeit_loops E ((10 : Int) ^ (-(log10ceil ((timeit_loops E 1 s).1).toQ)).toNat)
          (timeit_loops E 1 s).2).2) := by
  simp only [timeit]
  rw [if_neg (by omega), if_pos h2]
  rfl

/-- When the first-pass magnitude satisfies `l > 0` the driver keeps
`n = 1`, runs no second pass, and keeps the first sample. -/
theorem timeit_eq_slow {σ : Type} (E : Env σ) (s : σ)
    (h : 0 < log10ceil ((timeit_loops E 1 s).1).toQ) :
    timeit E s =
      (⟨1, ((timeit_loops E 1 s).1).toQ,
        (selectUnit (((timeit_loops E 1 s).1).toQ)).1,
        (selectUnit (((timeit_loops E 1 s).1).toQ)).2,
        [1]⟩,
       (timeit_loops E 1 s).2) := by
  simp only [timeit]
  rw [if_neg (by omega), if_neg (by omega)]
  rfl

/-- A counter that every block execution increments goes up by exactly
`k` across `k` loop iterations. -/
theorem loopN_cnt {σ : Type} (f : σ → σ) (cnt : σ → Nat)
    (hf : ∀ x, cnt (f x) = cnt x + 1) (k : Nat) (s : σ) :
    cnt (loopN f k s) = cnt s + k := by
  induction k generalizing s with
  | zero => rfl
  | succ m ih =>
    show cnt (loopN f (m + 1) s) = _
    rw [loopN, ih (f s), hf]
    omega

/-- One fixed-count pass with count `n` executes the block exactly
`n.toNat` times: a counter incremented by each block execution and left
alone by clock reads goes up by exactly `n.toNat`. -/
theorem timeit_loops_cnt {σ : Type} (E : Env σ) (cnt : σ → Nat)
    (hstep : ∀ x, cnt (E.step x) = cnt x + 1)
    (hclock : ∀ x, cnt (E.clock x).2 = cnt x)
    (n : Int) (s : σ) :
    cnt (timeit_loops E n s).2 = cnt s + n.toNat := by
  show cnt (E.clock (loopN E.step n.toNat (E.clock s).2)).2 = _
  rw [hclock, loopN_cnt E.step cnt hstep, hclock]

/-- A pass with a positive loop count returns a finite value: the elapsed
time between the two clock reads divided by the count. -/
theorem timeit_loops_pos_finite {σ : Type} (E : Env σ) (n : Int) (s : σ) (hn : 0 < n) :
    (timeit_loops E n s).1 =
      .finite (elapsedSec (E.clock s).1
        (E.clock (loopN E.step n.toNat (E.clock s).2)).1 / (n : ℚ)) := by
  show fdiv _ ((n : Int) : ℚ) = _
  unfold fdiv
  rw [if_neg]
  exact_mod_cast hn.ne'

/-- Between two valid, chronologically ordered timestamps the elapsed
seconds are nonnegative, including when the nanosecond field wraps
(`b.nsec < a.nsec` with `a.sec < b.sec`). -/
theorem elapsedSec_nonneg {a b : Timespec} (ha : a.valid) (hb : b.valid)
    (hab : Timespec.le a b) : 0 ≤ elapsedSec a b := by
  unfold elapsedSec
  obtain ⟨ha0, ha1⟩ := ha
  obtain ⟨hb0, hb1⟩ := hb
  rcases hab with h | ⟨h1, h2⟩
  · have hs : (1 : ℚ) ≤ ((b.sec - a.sec : Int) : ℚ) := by
      exact_mod_cast (by omega : (1 : Int) ≤ b.sec - a.sec)
    have hn : (-1000000000 : ℚ) < ((b.nsec - a.nsec : Int) : ℚ) := by
      exact_mod_cast (by omega : (-1000000000 : Int) < b.nsec - a.nsec)
    linarith
  · have hs : ((b.sec - a.sec : Int) : ℚ) = 0 := by
      exact_mod_cast (by omega : b.sec - a.sec = (0 : Int))
    have hn : (0 : ℚ) ≤ ((b.nsec - a.nsec : Int) : ℚ) := by
      exact_mod_cast (by omega : (0 : Int) ≤ b.nsec - a.nsec)
    rw [hs]
    linarith

/-- Dividing a finite value by zero yields one of the three special
values, and yields NaN exactly when the dividend is zero. -/
theorem fdiv_zero_cases (x : ℚ) :
    (fdiv x 0 = .posInf ∨ fdiv x 0 = .negInf ∨ fdiv x 0 = .nan) ∧
    (x = 0 → fdiv x 0 = .nan) := by
  unfold fdiv
  rw [if_pos rfl]
  constructor
  · split_ifs <;> tauto
  · intro hx
    rw [if_neg (by rw [hx]; exact lt_irrefl 0), if_neg (by rw [hx]; exact lt_irrefl 0)]

/-! ## Claims -/

/-- C1: for every first-pass estimate whose magnitude
`l = ceil(log10 sec₀)` satisfies `-5 ≤ l ≤ 0`, the adaptive driver sets
the second-pass loop count to exactly `10 ^ (-l)` and re-invokes the
fixed-count timer with that count (the pass list is `[1, 10^(-l)]`). -/
theorem C1_mid_magnitude_selects_inverse_power (σ : Type) (E : Env σ) (s : σ) (l : Int)
    (hl : l = log10ceil ((timeit_loops E 1 s).1).toQ)
    (h1 : -5 ≤ l) (h2 : l ≤ 0) :
    (timeit E s).1.n = (10 : Int) ^ (-l).toNat ∧
    (timeit E s).1.passes = [1, (10 : Int) ^ (-l).toNat] := by
  subst hl
  rw [timeit_eq_mid E s h1 h2]
  exact ⟨rfl, rfl⟩

/-- Witness for C1: a block taking exactly 1 ms per call has first-pass
estimate `10^-3`, magnitude `l = -3`, and gets loop count `1000`. -/
theorem C1_mid_magnitude_witness :
    ((-5 : Int) ≤ -3 ∧ (-3 : Int) ≤ 0) ∧
    (-3 : Int) = log10ceil ((timeit_loops (simEnv 1000000) 1 ((0 : Nat), (0 : Nat))).1).toQ ∧
    (timeit (simEnv 1000000) ((0 : Nat), (0 : Nat))).1.n = 1000 ∧
    (timeit (simEnv 1000000) ((0 : Nat), (0 : Nat))).1.passes = [1, 1000] := by
  have hq : ((timeit_loops (simEnv 1000000) 1 ((0 : Nat), (0 : Nat))).1).toQ
      = (10 : ℚ) ^ (-3 : ℤ) := by
    rw [timeit_loops_simEnv]
    norm_num [fdiv, FVal.toQ]
  have hl : (-3 : Int)
      = log10ceil ((timeit_loops (simEnv 1000000) 1 ((0 : Nat), (0 : Nat))).1).toQ := by
    rw [hq, log10ceil_zpow]
  have h := C1_mid_magnitude_selects_inverse_power _ (simEnv 1000000) ((0 : Nat), (0 : Nat))
    (-3) hl (by norm_num) (by norm_num)
  refine ⟨⟨by norm_num, by norm_num⟩, hl, ?_, ?_⟩
  · rw [h.1]; decide
  · rw [h.2]; decide

/-- C2: for every first-pass estimate with magnitude `l < -5`, the
adaptive driver sets the loop count to exactly `1_000_000` and performs a
second timing pass with that count. -/
theorem C2_fast_fallback_million (σ : Type) (E : Env σ) (s : σ)
    (h : log10ceil ((timeit_loops E 1 s).1).toQ < -5) :
    (timeit E s).1.n = 1000000 ∧ (timeit E s).1.passes = [1, 1000000] := by
  rw [timeit_eq_fast E s h]
  exact ⟨rfl, rfl⟩

/-- Witness for C2: a block taking exactly 100 ns per call has first-pass
estimate `10^-7`, magnitude `l = -7 < -5`, and gets loop count
`1_000_000`. -/
theorem C2_fast_fallback_witness :
    log10ceil ((timeit_loops (simEnv 100) 1 ((0 : Nat), (0 : Nat))).1).toQ < -5 ∧
    (timeit (simEnv 100) ((0 : Nat), (0 : Nat))).1.n = 1000000 ∧
    (timeit (simEnv 100) ((0 : Nat), (0 : Nat))).1.passes = [1, 1000000] := by
  have hq : ((timeit_loops (simEnv 100) 1 ((0 : Nat), (0 : Nat))).1).toQ
      = (10 : ℚ) ^ (-7 : ℤ) := by
    rw [timeit_loops_simEnv]
    norm_num [fdiv, FVal.toQ]
  have hl : log10ceil ((timeit_loops (simEnv 100) 1 ((0 : Nat), (0 : Nat))).1).toQ < -5 := by
    rw [hq, log10ceil_zpow]
    norm_num
  exact ⟨hl, C2_fast_fallback_million _ (simEnv 100) ((0 : Nat), (0 : Nat)) hl⟩

/-- Counterexample to C3 as stated: with a first-pass estimate of exactly
1 second (which is "at least 1 second"), the magnitude is
`l = ceil(log10 1) = 0`, so the `l ≤ 0` branch fires: a second timing
pass runs (pass list `[1, 1]`) and the block executes twice, not once. -/
theorem C3_counterexample_boundary_one_second :
    1 ≤ ((timeit_loops (simEnv 1000000000) 1 ((0 : Nat), (0 : Nat))).1).toQ ∧
    (timeit (simEnv 1000000000) ((0 : Nat), (0 : Nat))).1.passes = [1, 1] ∧
    ((timeit (simEnv 1000000000) ((0 : Nat), (0 : Nat))).2).2 = 2 := by
  have hq : ((timeit_loops (simEnv 1000000000) 1 ((0 : Nat), (0 : Nat))).1).toQ = 1 := by
    rw [timeit_loops_simEnv]
    norm_num [fdiv, FVal.toQ]
  have hl : log10ceil ((timeit_loops (simEnv 1000000000) 1 ((0 : Nat), (0 : Nat))).1).toQ
      = 0 := by
    rw [hq]
    unfold log10ceil
    norm_num [Int.clog_one_right]
  have h := timeit_eq_mid (simEnv 1000000000) ((0 : Nat), (0 : Nat))
    (by rw [hl]; norm_num) (by rw [hl])
  rw [h, hl]
  refine ⟨by rw [hq], ?_, ?_⟩
  · norm_num
  · show ((timeit_loops (simEnv 1000000000) ((10 : Int) ^ (-(0 : Int)).toNat)
      (timeit_loops (simEnv 1000000000) 1 ((0 : Nat), (0 : Nat))).2).2).2 = 2
    rw [timeit_loops_simEnv]
    show ((timeit_loops (simEnv 1000000000) ((10 : Int) ^ (-(0 : Int)).toNat)
      ((0 + (1 : Int).toNat * 1000000000, 0 + (1 : Int).toNat) : Nat × Nat)).2).2 = 2
    rw [timeit_loops_simEnv]
    norm_num

/-- C3 (amended): for every block whose first-pass estimate is strictly
greater than 1 second (equivalently, magnitude `l > 0`), the driver keeps
the loop count at 1, performs no second timing pass, the block executes
exactly once in total, and the original single-sample estimate is the
final reported sample. -/
theorem C3_slow_no_second_pass (σ : Type) (E : Env σ) (s : σ) (cnt : σ → Nat)
    (hstep : ∀ x, cnt (E.step x) = cnt x + 1)
    (hclock : ∀ x, cnt (E.clock x).2 = cnt x)
    (h : 1 < ((timeit_loops E 1 s).1).toQ) :
    (timeit E s).1.n = 1 ∧ (timeit E s).1.passes = [1] ∧
    (timeit E s).1.sec = ((timeit_loops E 1 s).1).toQ ∧
    cnt (timeit E s).2 = cnt s + 1 := by
  have hl : 0 < log10ceil ((timeit_loops E 1 s).1).toQ := by
    unfold log10ceil
    rw [if_neg (by linarith), if_neg (by push_neg; linarith)]
    by_contra hc
    push_neg at hc
    have h2 := (Int.le_zpow_iff_clog_le (by norm_num) (lt_trans zero_lt_one h)).mpr hc
    rw [zpow_zero] at h2
    linarith
  rw [timeit_eq_slow E s hl]
  refine ⟨rfl, rfl, rfl, ?_⟩
  simpa using timeit_loops_cnt E cnt hstep hclock 1 s

/-- Witness for the amended C3: a block taking exactly 10 s per call gets
loop count 1, one pass, and one block execution. -/
theorem C3_slow_no_second_pass_witness :
    1 < ((timeit_loops (simEnv 10000000000) 1 ((0 : Nat), (0 : Nat))).1).toQ ∧
    (timeit (simEnv 10000000000) ((0 : Nat), (0 : Nat))).1.n = 1 ∧
    (timeit (simEnv 10000000000) ((0 : Nat), (0 : Nat))).1.passes = [1] ∧
    ((timeit (simEnv 10000000000) ((0 : Nat), (0 : Nat))).2).2 = 0 + 1 := by
  have hq : ((timeit_loops (simEnv 10000000000) 1 ((0 : Nat), (0 : Nat))).1).toQ = 10 := by
    rw [timeit_loops_simEnv]
    norm_num [fdiv, FVal.toQ]
  have h1 : 1 < ((timeit_loops (simEnv 10000000000) 1 ((0 : Nat), (0 : Nat))).1).toQ := by
    rw [hq]; norm_num
  have h := C3_slow_no_second_pass _ (simEnv 10000000000) ((0 : Nat), (0 : Nat))
    (fun x => x.2) (fun x => rfl) (fun x => rfl) h1
  exact ⟨h1, h.1, h.2.1, h.2.2.2⟩

/-- C4: for every loop count `n ≥ 1` and every block, the fixed-count
timer executes the block exactly `n` times in sequence, reads the start
timestamp before the first iteration and the end timestamp after the
last, and returns the elapsed fractional seconds divided by `n`. -/
theorem C4_fixed_count_timer (σ : Type) (E : Env σ) (cnt : σ → Nat)
    (hstep : ∀ x, cnt (E.step x) = cnt x + 1)
    (hclock : ∀ x, cnt (E.clock x).2 = cnt x)
    (n : Int) (s : σ) (hn : 1 ≤ n) :
    (timeit_loops E n s).1 =
      .finite (elapsedSec (E.clock s).1
        (E.clock (loopN E.step n.toNat (E.clock s).2)).1 / (n : ℚ)) ∧
    cnt (timeit_loops E n s).2 = cnt s + n.toNat :=
  ⟨timeit_loops_pos_finite E n s (by omega), timeit_loops_cnt E cnt hstep hclock n s⟩

/-- Witness for C4: three iterations of a 5 ns block yield the average
5 ns = 1/200000000 s and three block executions. -/
theorem C4_fixed_count_timer_witness :
    (1 : Int) ≤ 3 ∧
    (timeit_loops (simEnv 5) 3 ((0 : Nat), (0 : Nat))).1 = .finite (1 / 200000000) ∧
    ((timeit_loops (simEnv 5) 3 ((0 : Nat), (0 : Nat))).2).2 = 0 + (3 : Int).toNat := by
  have h := C4_fixed_count_timer _ (simEnv 5) (fun x => x.2) (fun x => rfl) (fun x => rfl)
    3 ((0 : Nat), (0 : Nat)) (by norm_num)
  refine ⟨by norm_num, ?_, h.2⟩
  have h3 : Int.toNat 3 = 3 := rfl
  rw [timeit_loops_simEnv]
  norm_num [fdiv, h3]

/-- C5: the display unit and divisor are selected by strict greater-than
thresholds checked largest first — `(1, "s")` iff `sec > 1`, else
`(0.001, "ms")` iff `sec > 0.001`, else `(0.000001, "µs")` iff
`sec > 0.000001`, else `(0.000000001, "ns")`; in particular `1.5`, `0.5`,
`0.0005` and `0.0000005` select s, ms, µs and ns respectively. -/
theorem C5_unit_selection :
    (∀ sec : ℚ,
      (selectUnit sec = (1, "s") ↔ 1 < sec) ∧
      (selectUnit sec = (1 / 1000, "ms") ↔ ¬ 1 < sec ∧ 1 / 1000 < sec) ∧
      (selectUnit sec = (1 / 1000000, "µs") ↔
        ¬ 1 < sec ∧ ¬ 1 / 1000 < sec ∧ 1 / 1000000 < sec) ∧
      (selectUnit sec = (1 / 1000000000, "ns") ↔
        ¬ 1 < sec ∧ ¬ 1 / 1000 < sec ∧ ¬ 1 / 1000000 < sec)) ∧
    selectUnit (3 / 2) = (1, "s") ∧
    selectUnit (1 / 2) = (1 / 1000, "ms") ∧
    selectUnit (1 / 2000) = (1 / 1000000, "µs") ∧
    selectUnit (1 / 2000000) = (1 / 1000000000, "ns") := by
  have key : ∀ sec : ℚ,
      (selectUnit sec = (1, "s") ↔ 1 < sec) ∧
      (selectUnit sec = (1 / 1000, "ms") ↔ ¬ 1 < sec ∧ 1 / 1000 < sec) ∧
      (selectUnit sec = (1 / 1000000, "µs") ↔
        ¬ 1 < sec ∧ ¬ 1 / 1000 < sec ∧ 1 / 1000000 < sec) ∧
      (selectUnit sec = (1 / 1000000000, "ns") ↔
        ¬ 1 < sec ∧ ¬ 1 / 1000 < sec ∧ ¬ 1 / 1000000 < sec) := by
    intro sec
    unfold selectUnit
    split_ifs with h1 h2 h3 <;>
      refine ⟨?_, ?_, ?_, ?_⟩ <;>
      simp only [Prod.mk.injEq] <;>
      constructor <;>
      intro hx <;>
      tauto
  refine ⟨key, ?_, ?_, ?_, ?_⟩
  · exact (key (3 / 2)).1.mpr (by norm_num)
  · exact (key (1 / 2)).2.1.mpr (by norm_num)
  · exact (key (1 / 2000)).2.2.1.mpr (by norm_num)
  · exact (key (1 / 2000000)).2.2.2.mpr (by norm_num)

/-- C6: a first-pass estimate of exactly zero seconds is routed into the
large-fixed-multiplier branch without a domain error: `log10(0)` is `-∞`,
whose ceiling saturates to `isize::MIN < -5`, so the chosen loop count is
`1_000_000`. -/
theorem C6_zero_estimate_million (σ : Type) (E : Env σ) (s : σ)
    (h : ((timeit_loops E 1 s).1).toQ = 0) :
    (timeit E s).1.n = 1000000 ∧ (timeit E s).1.passes = [1, 1000000] := by
  have hl : log10ceil ((timeit_loops E 1 s).1).toQ < -5 := by
    rw [h]
    unfold log10ceil
    rw [if_pos rfl]
    norm_num
  rw [timeit_eq_fast E s hl]
  exact ⟨rfl, rfl⟩

/-- Witness for C6: a 0 ns block yields a zero first-pass estimate and
loop count `1_000_000`. -/
theorem C6_zero_estimate_witness :
    ((timeit_loops (simEnv 0) 1 ((0 : Nat), (0 : Nat))).1).toQ = 0 ∧
    (timeit (simEnv 0) ((0 : Nat), (0 : Nat))).1.n = 1000000 ∧
    (timeit (simEnv 0) ((0 : Nat), (0 : Nat))).1.passes = [1, 1000000] := by
  have hq : ((timeit_loops (simEnv 0) 1 ((0 : Nat), (0 : Nat))).1).toQ = 0 := by
    rw [timeit_loops_simEnv]
    norm_num [fdiv, FVal.toQ]
  exact ⟨hq, C6_zero_estimate_million _ (simEnv 0) ((0 : Nat), (0 : Nat)) hq⟩

/-- C7: for every loop count `n ≥ 1`, under the monotonic-clock
precondition (the end timestamp is not before the start timestamp, both
timestamps carrying a valid nanosecond field — including the wrap case
`end.nsec < start.nsec` with `end.sec > start.sec`), the fixed-count
timer returns a nonnegative average. -/
theorem C7_average_nonneg (σ : Type) (E : Env σ) (n : Int) (s : σ) (hn : 1 ≤ n)
    (hv1 : ((E.clock s).1).valid)
    (hv2 : ((E.clock (loopN E.step n.toNat (E.clock s).2)).1).valid)
    (hle : Timespec.le (E.clock s).1 (E.clock (loopN E.step n.toNat (E.clock s).2)).1) :
    0 ≤ ((timeit_loops E n s).1).toQ := by
  rw [timeit_loops_pos_finite E n s (by omega)]
  show 0 ≤ elapsedSec _ _ / ((n : Int) : ℚ)
  apply div_nonneg (elapsedSec_nonneg hv1 hv2 hle)
  exact_mod_cast (by omega : (0 : Int) ≤ n)

/-- Witness for C7: two iterations of a 5 ns block give a nonnegative
average. -/
theorem C7_average_nonneg_witness :
    (1 : Int) ≤ 2 ∧
    Timespec.le ((simEnv 5).clock ((0 : Nat), (0 : Nat))).1
      ((simEnv 5).clock (loopN (simEnv 5).step (2 : Int).toNat
        ((simEnv 5).clock ((0 : Nat), (0 : Nat))).2)).1 ∧
    0 ≤ ((timeit_loops (simEnv 5) 2 ((0 : Nat), (0 : Nat))).1).toQ := by
  refine ⟨by norm_num, by decide, ?_⟩
  exact C7_average_nonneg _ (simEnv 5) 2 ((0 : Nat), (0 : Nat)) (by norm_num)
    (by decide) (by decide) (by decide)

/-- C8: every invocation of the adaptive driver invokes the fixed-count
timer exactly once (with count 1) or exactly twice (the initial count-1
pass plus one re-measurement), never zero times and never more than
twice. -/
theorem C8_pass_count_one_or_two (σ : Type) (E : Env σ) (s : σ) :
    (timeit E s).1.passes = [1] ∨ ∃ m : Int, (timeit E s).1.passes = [1, m] := by
  by_cases hfast : log10ceil ((timeit_loops E 1 s).1).toQ < -5
  · right
    exact ⟨1000000, by rw [timeit_eq_fast E s hfast]⟩
  by_cases hmid : log10ceil ((timeit_loops E 1 s).1).toQ ≤ 0
  · right
    exact ⟨_, by rw [timeit_eq_mid E s (by omega) hmid]⟩
  · left
    rw [timeit_eq_slow E s (by omega)]

/-- C9: for every possible first-pass estimate, the loop count used for
the reported measurement satisfies `1 ≤ n ≤ 1_000_000` and is either
`1_000_000` or a power of ten `10 ^ k` with `k ≤ 5`. -/
theorem C9_loop_count_invariant (σ : Type) (E : Env σ) (s : σ) :
    1 ≤ (timeit E s).1.n ∧ (timeit E s).1.n ≤ 1000000 ∧
      ((timeit E s).1.n = 1000000 ∨ ∃ k : Nat, k ≤ 5 ∧ (timeit E s).1.n = 10 ^ k) := by
  by_cases hfast : log10ceil ((timeit_loops E 1 s).1).toQ < -5
  · rw [timeit_eq_fast E s hfast]
    exact ⟨by norm_num, le_refl _, Or.inl rfl⟩
  by_cases hmid : log10ceil ((timeit_loops E 1 s).1).toQ ≤ 0
  · rw [timeit_eq_mid E s (by omega) hmid]
    have hk : (-(log10ceil ((timeit_loops E 1 s).1).toQ)).toNat ≤ 5 := by omega
    have h1 : (1 : Int) ≤ 10 ^ (-(log10ceil ((timeit_loops E 1 s).1).toQ)).toNat := by
      calc (1 : Int) = 10 ^ (0 : Nat) := by norm_num
      _ ≤ 10 ^ (-(log10ceil ((timeit_loops E 1 s).1).toQ)).toNat :=
          pow_le_pow_right₀ (by norm_num) (Nat.zero_le _)
    have h2 : (10 : Int) ^ (-(log10ceil ((timeit_loops E 1 s).1).toQ)).toNat ≤ 1000000 := by
      calc (10 : Int) ^ (-(log10ceil ((timeit_loops E 1 s).1).toQ)).toNat
          ≤ 10 ^ (6 : Nat) := pow_le_pow_right₀ (by norm_num) (by omega)
      _ = 1000000 := by norm_num
    exact ⟨h1, h2, Or.inr ⟨_, hk, rfl⟩⟩
  · rw [timeit_eq_slow E s (by omega)]
    exact ⟨le_refl 1, by norm_num, Or.inr ⟨0, by norm_num, by norm_num⟩⟩

/-- C10: invoking the fixed-count timer with loop count 0 executes the
block zero times and raises no error: the elapsed time is divided by
zero in floating point, producing a non-finite value, and NaN exactly
when the measured elapsed time is zero. -/
theorem C10_zero_loop_count (σ : Type) (E : Env σ) (s : σ) (cnt : σ → Nat)
    (hstep : ∀ x, cnt (E.step x) = cnt x + 1)
    (hclock : ∀ x, cnt (E.clock x).2 = cnt x) :
    cnt (timeit_loops E 0 s).2 = cnt s ∧
    ((timeit_loops E 0 s).1 = .posInf ∨ (timeit_loops E 0 s).1 = .negInf ∨
      (timeit_loops E 0 s).1 = .nan) ∧
    (elapsedSec (E.clock s).1 (E.clock (E.clock s).2).1 = 0 →
      (timeit_loops E 0 s).1 = .nan) := by
  have he : (timeit_loops E 0 s).1 =
      fdiv (elapsedSec (E.clock s).1 (E.clock (E.clock s).2).1) 0 := by
    show fdiv (elapsedSec (E.clock s).1 (E.clock (loopN E.step (0 : Int).toNat
      (E.clock s).2)).1) (((0 : Int)) : ℚ) = _
    norm_num [loopN]
  refine ⟨by simpa using timeit_loops_cnt E cnt hstep hclock 0 s, ?_, ?_⟩
  · rw [he]
    exact (fdiv_zero_cases _).1
  · intro hz
    rw [he]
    exact (fdiv_zero_cases _).2 hz

/-- Witness for C10: loop count 0 with an instantaneous clock leaves the
execution counter at 0 and returns NaN. -/
theorem C10_zero_loop_count_witness :
    ((timeit_loops (simEnv 7) 0 ((0 : Nat), (0 : Nat))).2).2 = 0 ∧
    (timeit_loops (simEnv 7) 0 ((0 : Nat), (0 : Nat))).1 = .nan := by
  have h := C10_zero_loop_count _ (simEnv 7) ((0 : Nat), (0 : Nat)) (fun x => x.2)
    (fun x => rfl) (fun x => rfl)
  refine ⟨h.1, h.2.2 ?_⟩
  show elapsedSec (simClock 0) (simClock 0) = 0
  rw [elapsedSec_simClock]
  norm_num

end Timeit
